import Mathlib

/-!
Verification of the Iris measurement-orchestration engine against its
specification.  The Python sources are shallowly embedded: pure functions
become Lean functions, HTTP handlers become functions from an explicit
environment/state to an `Except` result, and the watcher loop becomes a
fuel-indexed step function.  External libraries (the `ipaddress` module,
the probing engine, the prefix counter) are abstracted as parameters.
-/

namespace Iris

/-! ## Parameter view composition (src/iris/commons/dataclasses.py) -/

/-- Python dict merge: in a display such as `\x7b**base, **overlay\x7d` the
overlay's bindings win on key collision (from ParametersDataclass.__init__). -/
def dictMerge {V : Type} (base overlay : String → Option V) : String → Option V :=
  fun k =>
    match overlay k with
    | some v => some v
    | none => base k

/-- The `_dataclass` mapping built by `ParametersDataclass.__init__`:
physical, then measurement, then specific parameters, then the singleton
binding of the key "agent_uuid" to the agent identity, later layers winning. -/
def parametersDataclass {V : Type} (agent_uuid : V)
    (measurement_parameters physical_parameters specific_parameters : String → Option V) :
    String → Option V :=
  dictMerge
    (dictMerge (dictMerge physical_parameters measurement_parameters) specific_parameters)
    (fun k => if k = "agent_uuid" then some agent_uuid else none)

/-! ## Prober (src/iris/agent/prober.py) -/

/-- The settings consulted by the agent-side prober code. -/
structure AgentSettings where
  AGENT_MAX_PROBING_RATE : Nat
  AGENT_PROBER_RATE_LIMITING_METHOD : String
  AGENT_PROBER_EXCLUDE_PATH : Option String
  WORKER_STOPPER_REFRESH : Nat
  deriving DecidableEq

/-- The engine configuration assembled by `probe`: each field records the
argument of the corresponding `config.set_*` call.  The field
`filter_prefix_file_excl` is `some arg` when
`config.filter_from_prefix_file_excl(arg)` was invoked and `none` when the
call was skipped. -/
structure ProberConfig where
  output_file_csv : String
  probing_rate : Nat
  rate_limiting_method : String
  meta_round : String
  filter_prefix_file_excl : Option (Option String)
  deriving DecidableEq

/-- What `probe` feeds the engine: for round 1 the generated probe stream
(the opaque generator is abstracted, keeping only its parameters), for later
rounds the previous round's probes file. -/
inductive ProbeInput (G : Type) where
  | generated (gen_parameters : Option G)
  | fromFile (probes_filepath : Option String)
  deriving DecidableEq

/-- Shallow embedding of `probe`.  The requested `probing_rate` is an
`Option Nat`: `none` embeds Python `None`; the guard
`probing_rate and probing_rate <= settings.AGENT_MAX_PROBING_RATE` is falsy
for `None` and for `0`. -/
def probe {G : Type} (settings : AgentSettings) (results_filepath : String)
    (round_number : Nat) (probing_rate : Option Nat)
    (gen_parameters : Option G) (probes_filepath : Option String) :
    ProberConfig × ProbeInput G :=
  let measurement_probing_rate :=
    match probing_rate with
    | some p =>
      if p ≠ 0 ∧ p ≤ settings.AGENT_MAX_PROBING_RATE then p
      else settings.AGENT_MAX_PROBING_RATE
    | none => settings.AGENT_MAX_PROBING_RATE
  let config : ProberConfig :=
    { output_file_csv := results_filepath
      probing_rate := measurement_probing_rate
      rate_limiting_method := settings.AGENT_PROBER_RATE_LIMITING_METHOD
      meta_round := toString round_number
      filter_prefix_file_excl :=
        if settings.AGENT_PROBER_EXCLUDE_PATH = none then
          some settings.AGENT_PROBER_EXCLUDE_PATH
        else none }
  if round_number = 1 then (config, ProbeInput.generated gen_parameters)
  else (config, ProbeInput.fromFile probes_filepath)

/-! ## Watcher (src/iris/agent/prober.py) -/

/-- Shallow embedding of the `watcher` coroutine as a fuel-indexed step
function.  `alive i` says whether the supervised process is still alive at
poll `i` (absent a kill), `redis` is the optional Shared State Store client
read as a function from poll index to the stored measurement state, and `k`
is the current poll index.  `some false` is the cancellation outcome (the
process was killed), `some true` the normal-completion outcome, and `none`
means the fuel ran out before the loop finished. -/
def watcherRun (alive : Nat → Bool) (redis : Option (Nat → Option String)) :
    Nat → Nat → Option Bool
  | 0, _ => none
  | fuel + 1, k =>
    if alive k then
      match redis with
      | some f =>
        match f k with
        | none => some false
        | some _ => watcherRun alive redis fuel (k + 1)
      | none => watcherRun alive redis fuel (k + 1)
    else some true

/-! ## API measurement handlers (src/iris/api/measurements.py) -/

/-- HTTP errors raised by the handlers (fastapi HTTPException status codes). -/
inductive ApiError where
  | notFound (detail : String)
  | unauthorized (detail : String)
  | preconditionFailed (detail : String)
  deriving DecidableEq

/-- A paginated results page as returned by DatabasePagination. -/
structure ResultsPage (R : Type) where
  count : Nat
  next : Option String
  previous : Option String
  results : List R
  deriving DecidableEq

/-- The environment read by `get_measurement_results`: whether the
measurement row exists for the user, the AgentSpecific row's state when it
exists, whether the physical result table exists, and what the paginated
query would return on the existing table. -/
structure ResultsEnv (R : Type) where
  measurement_found : Bool
  agent_specific_state : Option String
  table_exists : Bool
  page : ResultsPage R
  deriving DecidableEq

/-- Shallow embedding of the `get_measurement_results` handler: 404 when the
measurement is unknown, 404 when the agent did not participate, 412 when the
agent has not finished, the empty page when the physical table does not
exist, otherwise the paginated query result. -/
def get_measurement_results {R : Type} (env : ResultsEnv R) :
    Except ApiError (ResultsPage R) :=
  if env.measurement_found then
    match env.agent_specific_state with
    | none =>
      Except.error (ApiError.notFound "The agent did not participate to the measurement")
    | some st =>
      if st = "finished" then
        if env.table_exists then Except.ok env.page
        else Except.ok { count := 0, next := none, previous := none, results := [] }
      else
        Except.error (ApiError.preconditionFailed "The agent has not finished the measurement")
  else Except.error (ApiError.notFound "Measurement not found")

/-- A row of the measurements table (src/iris/commons/database.py,
DatabaseMeasurements); only the fields the cancel/finalize claims touch. -/
structure MeasurementRow where
  uuid : String
  user : String
  end_time : Option Nat
  deriving DecidableEq

/-- A per-(measurement, agent) AgentSpecific row. -/
structure AgentSpecificRow where
  measurement_uuid : String
  agent_uuid : String
  state : String
  deriving DecidableEq

/-- The shared mutable state visible to the measurement API: registry rows
and the Shared State Store (redis) entries keyed by measurement uuid. -/
structure WorldState where
  measurements : List MeasurementRow
  agent_specifics : List AgentSpecificRow
  redis_states : List (String × String)
  deriving DecidableEq

/-- DatabaseMeasurements.get: the row for this user and uuid, if any. -/
def measurementGet (rows : List MeasurementRow) (user uuid : String) :
    Option MeasurementRow :=
  rows.find? (fun r => r.user == user && r.uuid == uuid)

/-- redis.get_measurement_state: the liveness value stored for a
measurement uuid, if the key is present. -/
def redisGetState (keys : List (String × String)) (uuid : String) :
    Option String :=
  (keys.find? (fun p => p.1 == uuid)).map (fun p => p.2)

/-- The response body of the cancel handler. -/
structure DeleteResponse where
  uuid : String
  action : String
  deriving DecidableEq

/-- Shallow embedding of the `delete_measurement` (cancel) handler: 404 when
the measurement is unknown, 404 when the liveness key is already absent,
otherwise delete the liveness key and answer "canceled".  The returned
`WorldState` is the state after the handler ran. -/
def delete_measurement (st : WorldState) (user uuid : String) :
    Except ApiError (WorldState × DeleteResponse) :=
  match measurementGet st.measurements user uuid with
  | none => Except.error (ApiError.notFound "Measurement not found")
  | some _ =>
    match redisGetState st.redis_states uuid with
    | none => Except.error (ApiError.notFound "Measurement already finished")
    | some _ =>
      Except.ok
        ({ measurements := st.measurements
           agent_specifics := st.agent_specifics
           redis_states := st.redis_states.filter (fun p => !(p.1 == uuid)) },
         { uuid := uuid, action := "canceled" })

/-- DatabaseMeasurements.stamp_end_time: update end_time on the rows
matching the given user and uuid. -/
def stamp_end_time (rows : List MeasurementRow) (user uuid : String)
    (end_time : Nat) : List MeasurementRow :=
  rows.map fun r =>
    if r.user == user && r.uuid == uuid then { r with end_time := some end_time }
    else r

/-- Tool parameters of a measurement or of a per-agent override
(src/iris/api/schemas.py fields used by the validator). -/
structure ToolParameters where
  protocol : String
  min_ttl : Nat
  max_ttl : Nat
  max_round : Nat
  deriving DecidableEq

/-- Shallow embedding of `tool_parameters_validator`: for the restricted
tool diamond-miner-ping, max_round is forced to 1 and then a udp protocol is
rejected with a 401; any other tool passes its parameters through. -/
def tool_parameters_validator (tool : String) (parameters : ToolParameters) :
    Except ApiError ToolParameters :=
  if tool = "diamond-miner-ping" then
    let forced := { parameters with max_round := 1 }
    if forced.protocol = "udp" then
      Except.error
        (ApiError.unauthorized "Tool diamond-miner-ping only accessible with ICMP protocol")
    else Except.ok forced
  else Except.ok parameters

/-- A per-agent entry of the submission body. -/
structure AgentRequest where
  uuid : String
  tool_parameters : ToolParameters
  deriving DecidableEq

/-- The submission body (MeasurementsPostBody); an empty `agents` list
embeds the falsy absent/empty agents key of the Python request. -/
structure PostBody where
  targets_file : String
  tool : String
  tool_parameters : ToolParameters
  tags : List String
  agents : List AgentRequest
  deriving DecidableEq

/-- External inputs read by the `post_measurement` handler: whether the
targets file exists in object storage, the quota check's outcome (`none`
embeds the ValueError raised by the prefix counter), the uuids of the
currently live agents, the fresh measurement uuid, and the calling user. -/
structure PostEnv where
  storage_has_file : Bool
  quota_ok : Option Bool
  active_agents : List String
  new_uuid : String
  user : String
  deriving DecidableEq

/-- The per-agent loop of `post_measurement`: each explicitly requested
agent must be live, and its override parameters go through the tool
validator; the first failure aborts the submission. -/
def buildAgents (tool : String) :
    List AgentRequest → List String →
    Except ApiError (List (String × Option ToolParameters))
  | [], _ => Except.ok []
  | a :: rest, active =>
    if a.uuid ∈ active then
      match tool_parameters_validator tool a.tool_parameters with
      | Except.error e => Except.error e
      | Except.ok tp =>
        match buildAgents tool rest active with
        | Except.error e => Except.error e
        | Except.ok l => Except.ok ((a.uuid, some tp) :: l)
    else Except.error (ApiError.notFound "Agent not found")

/-- The job payload handed to `hook.send` when a submission is accepted;
nothing is dispatched and no state is written unless the handler returns
this value. -/
structure Dispatch where
  agents : List (String × Option ToolParameters)
  measurement_uuid : String
  user : String
  tool : String
  tool_parameters : ToolParameters
  deriving DecidableEq

/-- The agent set actually dispatched: the explicitly requested agents when
the body names some (each checked live and validated), otherwise every live
agent with empty overrides. -/
def dispatchAgents (env : PostEnv) (m : PostBody) :
    Except ApiError (List (String × Option ToolParameters)) :=
  if m.agents.isEmpty then
    Except.ok (env.active_agents.map (fun u => (u, none)))
  else buildAgents m.tool m.agents env.active_agents

/-- Shallow embedding of the `post_measurement` handler in source order:
storage lookup, quota check, measurement-level tool validation, per-agent
loop, then dispatch. -/
def post_measurement (env : PostEnv) (m : PostBody) : Except ApiError Dispatch :=
  if env.storage_has_file then
    match env.quota_ok with
    | none => Except.error (ApiError.unauthorized "Invalid prefixes length")
    | some q =>
      if q then
        match tool_parameters_validator m.tool m.tool_parameters with
        | Except.error e => Except.error e
        | Except.ok tp =>
          match dispatchAgents env m with
          | Except.error e => Except.error e
          | Except.ok ags =>
            Except.ok
              { agents := ags
                measurement_uuid := env.new_uuid
                user := env.user
                tool := m.tool
                tool_parameters := tp }
      else Except.error (ApiError.unauthorized "Quota exceeded")
  else Except.error (ApiError.notFound "File object not found")

/-! ## Target file validation (src/iris/api/targets.py) -/

/-- Python str.strip: remove leading and trailing whitespace. -/
def pyStrip (s : List Char) : List Char :=
  ((s.dropWhile Char.isWhitespace).reverse.dropWhile Char.isWhitespace).reverse

/-- Python str.split on a one-character separator, with an accumulator for
the chunk being read. -/
def splitOnChar (sep : Char) : List Char → List Char → List (List Char)
  | acc, [] => [acc.reverse]
  | acc, c :: rest =>
    if c = sep then acc.reverse :: splitOnChar sep [] rest
    else splitOnChar sep (c :: acc) rest

/-- Decimal accumulator used by parsePyInt. -/
def digitsToNatAux : Nat → List Char → Option Nat
  | acc, [] => some acc
  | acc, c :: rest =>
    if c.isDigit then digitsToNatAux (acc * 10 + (c.toNat - '0'.toNat)) rest
    else none

/-- Python int(str) restricted to the plain decimal forms the validator
meets: optional surrounding whitespace, optional sign, then at least one
decimal digit; `none` embeds the ValueError raised on anything else. -/
def parsePyInt (s : List Char) : Option Int :=
  match pyStrip s with
  | [] => none
  | '+' :: ds => if ds = [] then none else (digitsToNatAux 0 ds).map Int.ofNat
  | '-' :: ds =>
    if ds = [] then none else (digitsToNatAux 0 ds).map (fun n => -(n : Int))
  | ds => (digitsToNatAux 0 ds).map Int.ofNat

/-- The TTL field checks of verify_target_file: `0 < int(field) <= 255`,
False when int() raises. -/
def ttlFieldOk (s : List Char) : Bool :=
  match parsePyInt s with
  | some v => decide (0 < v) && decide (v ≤ 255)
  | none => false

/-- The loop body of verify_target_file for one line: strip, split on
commas, then check the target through the abstracted `ipaddress.ip_network`
acceptance test `ipOk`, the protocol, and both TTL fields; a missing field
(IndexError) or a raising parse makes the line fail. -/
def lineCheck (ipOk : List Char → Bool) (line : List Char) : Bool :=
  match splitOnChar ',' [] (pyStrip line) with
  | [] => false
  | t :: rest =>
    ipOk t &&
      match rest with
      | [] => false
      | p :: rest2 =>
        (p == "icmp".data || p == "icmp6".data || p == "udp".data) &&
          match rest2 with
          | [] => false
          | mi :: rest3 =>
            ttlFieldOk mi &&
              match rest3 with
              | [] => false
              | ma :: _ => ttlFieldOk ma

/-- Shallow embedding of verify_target_file over the file's lines (an empty
file has no bytes, hence no lines, and is rejected); every line must pass
the per-line check. -/
def verify_target_file (ipOk : List Char → Bool)
    (lines : List (List Char)) : Bool :=
  match lines with
  | [] => false
  | _ => lines.all (lineCheck ipOk)

/-- Follows the spec's words, for comparison with the code: a line "has the
form target,protocol,min_ttl,max_ttl" — exactly four comma-separated fields
satisfying the stated constraints. -/
def specLineForm (ipOk : List Char → Bool) (line : List Char) : Bool :=
  match splitOnChar ',' [] (pyStrip line) with
  | [t, p, mi, ma] =>
    ipOk t &&
      ((p == "icmp".data || p == "icmp6".data || p == "udp".data) &&
        (ttlFieldOk mi && ttlFieldOk ma))
  | _ => false

/-- What the code actually requires of a line: the first four
comma-separated fields are valid, any extra trailing fields being ignored. -/
def specFirstFour (ipOk : List Char → Bool) (line : List Char) : Bool :=
  match splitOnChar ',' [] (pyStrip line) with
  | t :: p :: mi :: ma :: _ =>
    ipOk t &&
      ((p == "icmp".data || p == "icmp6".data || p == "udp".data) &&
        (ttlFieldOk mi && ttlFieldOk ma))
  | _ => false

/-! ## Result table naming (src/iris/commons/database.py) -/

/-- Python measurement_uuid.replace with the one-character pattern made of
a hyphen, replaced by an underscore: a character map (forge_table_name). -/
def sanitizeUuid (s : List Char) : List Char :=
  s.map fun c => if c = '-' then '_' else c

/-- Python replace of every underscore by a hyphen (parse_table_name). -/
def desanitizeUuid (s : List Char) : List Char :=
  s.map fun c => if c = '_' then '-' else c

/-- DatabaseMeasurementResults.forge_table_name: "results", the sanitized
measurement uuid and the sanitized agent uuid, joined by double
underscores. -/
def forge_table_name (measurement_uuid agent_uuid : List Char) : List Char :=
  "results".data ++ "__".data ++ sanitizeUuid measurement_uuid ++ "__".data ++
    sanitizeUuid agent_uuid

/-- Python str.split on the two-underscore separator: leftmost-first,
non-overlapping, with an accumulator for the chunk being read. -/
def splitUnd : List Char → List Char → List (List Char)
  | acc, c :: d :: rest =>
    if c = '_' ∧ d = '_' then acc.reverse :: splitUnd [] rest
    else splitUnd (c :: acc) (d :: rest)
  | acc, [c] => [(c :: acc).reverse]
  | acc, [] => [acc.reverse]

/-- DatabaseMeasurementResults.parse_table_name: read the chunks at indices
1 and 2 of the split and map underscores back to hyphens; `none` embeds the
IndexError raised when the split is shorter. -/
def parse_table_name (table_name : List Char) :
    Option (List Char × List Char) :=
  match splitUnd [] table_name with
  | _ :: m :: a :: _ => some (desanitizeUuid m, desanitizeUuid a)
  | _ => none

/-- Hexadecimal digit, upper or lower case. -/
def isHexChar (c : Char) : Bool :=
  ('0' ≤ c && c ≤ '9') || ('a' ≤ c && c ≤ 'f') || ('A' ≤ c && c ≤ 'F')

/-- A valid textual UUID: five hyphen-separated groups of hexadecimal
digits with lengths 8, 4, 4, 4 and 12. -/
def ValidUuid (s : List Char) : Prop :=
  ∃ g1 g2 g3 g4 g5 : List Char,
    g1.length = 8 ∧ g2.length = 4 ∧ g3.length = 4 ∧ g4.length = 4 ∧
    g5.length = 12 ∧
    (∀ c ∈ g1, isHexChar c = true) ∧ (∀ c ∈ g2, isHexChar c = true) ∧
    (∀ c ∈ g3, isHexChar c = true) ∧ (∀ c ∈ g4, isHexChar c = true) ∧
    (∀ c ∈ g5, isHexChar c = true) ∧
    s = g1 ++ '-' :: (g2 ++ '-' :: (g3 ++ '-' :: (g4 ++ '-' :: g5)))

/-- A chunk the double-underscore split scans through unbroken: no two
adjacent underscores and no trailing underscore. -/
def cleanChunk : List Char → Bool
  | [] => true
  | [c] => c != '_'
  | c :: d :: rest => !(c == '_' && d == '_') && cleanChunk (d :: rest)

end Iris

namespace Iris

/-! ## Theorems for C2, C3, C10 -/

/-- Both branches of `probe` build the same configuration; this lemma
exposes it for the rate and filter theorems. -/
theorem probe_config {G : Type} (settings : AgentSettings) (fp : String)
    (rn : Nat) (r : Option Nat) (gp : Option G) (pf : Option String) :
    (probe settings fp rn r gp pf).1 =
      { output_file_csv := fp
        probing_rate :=
          match r with
          | some p =>
            if p ≠ 0 ∧ p ≤ settings.AGENT_MAX_PROBING_RATE then p
            else settings.AGENT_MAX_PROBING_RATE
          | none => settings.AGENT_MAX_PROBING_RATE
        rate_limiting_method := settings.AGENT_PROBER_RATE_LIMITING_METHOD
        meta_round := toString rn
        filter_prefix_file_excl :=
          if settings.AGENT_PROBER_EXCLUDE_PATH = none then
            some settings.AGENT_PROBER_EXCLUDE_PATH
          else none } := by
  unfold probe
  by_cases h : rn = 1 <;> simp [h]

/-- C2: the ParameterView built from the three layers maps any key present
in several layers to the value from the highest-precedence layer, with
precedence specific > measurement > physical, and the key "agent_uuid"
always maps to the given agent identity, overriding the layers. -/
theorem C2_parameter_view_precedence {V : Type} (a : V)
    (m p s : String → Option V) (k : String) :
    parametersDataclass a m p s "agent_uuid" = some a ∧
    (k ≠ "agent_uuid" → ∀ v, s k = some v → parametersDataclass a m p s k = some v) ∧
    (k ≠ "agent_uuid" → s k = none → ∀ v, m k = some v →
      parametersDataclass a m p s k = some v) ∧
    (k ≠ "agent_uuid" → s k = none → m k = none →
      parametersDataclass a m p s k = p k) := by
  refine ⟨?_, ?_, ?_, ?_⟩
  · simp [parametersDataclass, dictMerge]
  · intro hk v hv
    simp [parametersDataclass, dictMerge, hk, hv]
  · intro hk hs v hv
    simp [parametersDataclass, dictMerge, hk, hs, hv]
  · intro hk hs hm
    simp [parametersDataclass, dictMerge, hk, hs, hm]

/-- C2 witness at concrete layers: the key "rate" present in all three
layers resolves to the specific layer's value, and "agent_uuid" resolves to
the agent identity. -/
theorem C2_parameter_view_precedence_witness :
    parametersDataclass 7 (fun k => if k = "rate" then some 1 else none)
      (fun k => if k = "rate" then some 2 else none)
      (fun k => if k = "rate" then some 3 else none) "agent_uuid" = some 7 ∧
    parametersDataclass 7 (fun k => if k = "rate" then some 1 else none)
      (fun k => if k = "rate" then some 2 else none)
      (fun k => if k = "rate" then some 3 else none) "rate" = some 3 := by
  refine ⟨(C2_parameter_view_precedence 7 _ _ _ "rate").1, ?_⟩
  exact (C2_parameter_view_precedence 7
    (fun k => if k = "rate" then some 1 else none)
    (fun k => if k = "rate" then some 2 else none)
    (fun k => if k = "rate" then some 3 else none) "rate").2.1
    (by decide) 3 (by simp)

/-- C3 counterexample: with ceiling 1000 and requested rate 0, the engine
receives rate 1000, not min 0 1000 = 0 — Python treats a zero requested rate
as falsy and falls back to the ceiling, so the claim as stated (effective =
min whenever a rate is requested) is false at requested = 0. -/
theorem C3_rate_cap_counterexample :
    ¬ ((probe (G := Unit)
        ⟨1000, "auto", none, 1⟩ "results.csv" 1 (some 0) none none).1.probing_rate
      = min 0 1000) := by
  decide

/-- C3 (amended): the effective probing rate passed to the engine equals
min(requested, ceiling) when a positive rate is requested, equals the
ceiling when the requested rate is absent or zero, and never exceeds the
agent's configured maximum. -/
theorem C3_rate_cap {G : Type} (settings : AgentSettings) (fp : String)
    (rn : Nat) (r : Option Nat) (gp : Option G) (pf : Option String) :
    (∀ p, r = some p → 0 < p →
      (probe settings fp rn r gp pf).1.probing_rate =
        min p settings.AGENT_MAX_PROBING_RATE) ∧
    ((r = none ∨ r = some 0) →
      (probe settings fp rn r gp pf).1.probing_rate =
        settings.AGENT_MAX_PROBING_RATE) ∧
    (probe settings fp rn r gp pf).1.probing_rate ≤
      settings.AGENT_MAX_PROBING_RATE := by
  refine ⟨?_, ?_, ?_⟩
  · intro p hp hpos
    subst hp
    rw [probe_config]
    dsimp only
    split <;> omega
  · rintro (hr | hr) <;> (subst hr; simp [probe_config])
  · rw [probe_config]
    dsimp only
    match r with
    | none => exact Nat.le_refl _
    | some p =>
      dsimp only
      split <;> omega

/-- C3 witness: requested=100000 with ceiling=1000 gives 1000, requested=500
with ceiling=1000 gives 500, requested unset gives the ceiling, and a
requested rate of 500 never exceeds the ceiling. -/
theorem C3_rate_cap_witness :
    (probe (G := Unit) ⟨1000, "auto", none, 1⟩ "r.csv" 1 (some 100000) none
      none).1.probing_rate = min 100000 1000 ∧
    (probe (G := Unit) ⟨1000, "auto", none, 1⟩ "r.csv" 1 (some 500) none
      none).1.probing_rate = min 500 1000 ∧
    (probe (G := Unit) ⟨1000, "auto", none, 1⟩ "r.csv" 1 none none
      none).1.probing_rate = 1000 ∧
    (probe (G := Unit) ⟨1000, "auto", none, 1⟩ "r.csv" 1 (some 500) none
      none).1.probing_rate ≤ 1000 := by
  refine ⟨?_, ?_, ?_, ?_⟩
  · exact (C3_rate_cap ⟨1000, "auto", none, 1⟩ "r.csv" 1 (some 100000) none
      none).1 100000 rfl (by decide)
  · exact (C3_rate_cap ⟨1000, "auto", none, 1⟩ "r.csv" 1 (some 500) none
      none).1 500 rfl (by decide)
  · exact (C3_rate_cap (G := Unit) ⟨1000, "auto", none, 1⟩ "r.csv" 1 none none
      none).2.1 (Or.inl rfl)
  · exact (C3_rate_cap ⟨1000, "auto", none, 1⟩ "r.csv" 1 (some 500) none
      none).2.2

/-- C10: the exclusion-prefix filter is configured on the engine if and only
if the configured exclusion path setting is None; when an actual path is
configured (non-None) it is never passed to the engine, and when the filter
call does happen its argument is the None value. -/
theorem C10_exclusion_filter_inverted {G : Type} (settings : AgentSettings)
    (fp : String) (rn : Nat) (r : Option Nat) (gp : Option G)
    (pf : Option String) :
    ((probe settings fp rn r gp pf).1.filter_prefix_file_excl ≠ none ↔
      settings.AGENT_PROBER_EXCLUDE_PATH = none) ∧
    (∀ p, settings.AGENT_PROBER_EXCLUDE_PATH = some p →
      (probe settings fp rn r gp pf).1.filter_prefix_file_excl = none) ∧
    (∀ x, (probe settings fp rn r gp pf).1.filter_prefix_file_excl = some x →
      x = none) := by
  have hcfg : (probe settings fp rn r gp pf).1.filter_prefix_file_excl =
      if settings.AGENT_PROBER_EXCLUDE_PATH = none then
        some settings.AGENT_PROBER_EXCLUDE_PATH
      else none := by
    rw [probe_config]
  refine ⟨?_, ?_, ?_⟩
  · rw [hcfg]
    by_cases h : settings.AGENT_PROBER_EXCLUDE_PATH = none <;> simp [h]
  · intro p hp
    rw [hcfg, if_neg (by simp [hp])]
  · intro x hx
    rw [hcfg] at hx
    by_cases h : settings.AGENT_PROBER_EXCLUDE_PATH = none
    · rw [if_pos h] at hx
      rw [← Option.some_inj.mp hx, h]
    · rw [if_neg h] at hx
      exact absurd hx (by simp)

/-- C10 witness: with an exclusion path configured the filter call is
skipped, and with the path unset the filter call happens with argument None. -/
theorem C10_exclusion_filter_inverted_witness :
    (probe (G := Unit) ⟨1000, "auto", some "excluded.txt", 1⟩ "r.csv" 1 none
      none none).1.filter_prefix_file_excl = none ∧
    (probe (G := Unit) ⟨1000, "auto", none, 1⟩ "r.csv" 1 none none
      none).1.filter_prefix_file_excl = some none := by
  constructor
  · exact (C10_exclusion_filter_inverted ⟨1000, "auto", some "excluded.txt", 1⟩
      "r.csv" 1 none none none).2.1 "excluded.txt" rfl
  · have hiff := (C10_exclusion_filter_inverted (G := Unit) ⟨1000, "auto", none, 1⟩
      "r.csv" 1 none none none).1
    have hne : (probe (G := Unit) ⟨1000, "auto", none, 1⟩ "r.csv" 1 none none
        none).1.filter_prefix_file_excl ≠ none := hiff.mpr rfl
    obtain ⟨x, hx⟩ := Option.ne_none_iff_exists.mp hne
    have hx' := hx.symm
    have h3 := (C10_exclusion_filter_inverted (G := Unit) ⟨1000, "auto", none, 1⟩
      "r.csv" 1 none none none).2.2 x hx'
    rw [h3] at hx'
    exact hx'

/-- C4: run against a supervised process, the watcher returns False
(cancellation, after killing the process) when it observes the liveness key
absent while the process is alive; returns True (normal completion) when the
process exits on its own first; and with no Shared State Store client
configured it never reports cancellation, so the round always runs to
completion. -/
theorem C4_watcher_behaviour :
    (∀ (alive : Nat → Bool) (f : Nat → Option String) (k m fuel : Nat),
      k ≤ m → m < k + fuel →
      (∀ i, k ≤ i → i ≤ m → alive i = true) →
      (∀ i, k ≤ i → i < m → f i ≠ none) →
      f m = none →
      watcherRun alive (some f) fuel k = some false) ∧
    (∀ (alive : Nat → Bool) (redis : Option (Nat → Option String)) (k m fuel : Nat),
      k ≤ m → m < k + fuel →
      (∀ i, k ≤ i → i < m → alive i = true) →
      (∀ i, k ≤ i → i < m → ∀ f, redis = some f → f i ≠ none) →
      alive m = false →
      watcherRun alive redis fuel k = some true) ∧
    (∀ (alive : Nat → Bool) (fuel k : Nat),
      watcherRun alive none fuel k ≠ some false) := by
  refine ⟨?_, ?_, ?_⟩
  · intro alive f k m fuel
    induction fuel generalizing k with
    | zero => intro h1 h2 _ _ _; omega
    | succ n ih =>
      intro hkm hlt hal hpres habs
      have hak : alive k = true := hal k (Nat.le_refl k) hkm
      by_cases hk : k = m
      · subst hk
        simp [watcherRun, hak, habs]
      · have hkm' : k < m := Nat.lt_of_le_of_ne hkm hk
        have hfk : f k ≠ none := hpres k (Nat.le_refl k) hkm'
        obtain ⟨v, hv⟩ := Option.ne_none_iff_exists'.mp hfk
        have step : watcherRun alive (some f) (n + 1) k =
            watcherRun alive (some f) n (k + 1) := by
          simp [watcherRun, hak, hv]
        rw [step]
        exact ih (k + 1) hkm' (by omega) (fun i h1 h2 => hal i (by omega) h2)
          (fun i h1 h2 => hpres i (by omega) h2) habs
  · intro alive redis k m fuel
    induction fuel generalizing k with
    | zero => intro h1 h2 _ _ _; omega
    | succ n ih =>
      intro hkm hlt hal hpres hdead
      by_cases hk : k = m
      · subst hk
        simp [watcherRun, hdead]
      · have hkm' : k < m := Nat.lt_of_le_of_ne hkm hk
        have hak : alive k = true := hal k (Nat.le_refl k) hkm'
        have step : watcherRun alive redis (n + 1) k =
            watcherRun alive redis n (k + 1) := by
          rcases redis with _ | f
          · simp [watcherRun, hak]
          · have hfk : f k ≠ none := hpres k (Nat.le_refl k) hkm' f rfl
            obtain ⟨v, hv⟩ := Option.ne_none_iff_exists'.mp hfk
            simp [watcherRun, hak, hv]
        rw [step]
        exact ih (k + 1) hkm' (by omega) (fun i h1 h2 => hal i (by omega) h2)
          (fun i h1 h2 => hpres i (by omega) h2) hdead
  · intro alive fuel
    induction fuel with
    | zero => intro k h; simp [watcherRun] at h
    | succ n ih =>
      intro k h
      cases hak : alive k with
      | false => simp [watcherRun, hak] at h
      | true =>
        simp only [watcherRun, hak, ite_true] at h
        exact ih (k + 1) h

/-- C4 witness: with the key already absent at the first poll and a live
process, the watcher reports cancellation; with no store client and a
process that exits after one poll, it reports normal completion; with no
store client it never reports cancellation. -/
theorem C4_watcher_behaviour_witness :
    watcherRun (fun _ => true) (some (fun _ => none)) 1 0 = some false ∧
    watcherRun (fun i => i == 0) none 2 0 = some true ∧
    watcherRun (fun _ => true) none 5 0 ≠ some false := by
  refine ⟨?_, ?_, ?_⟩
  · exact C4_watcher_behaviour.1 (fun _ => true) (fun _ => none) 0 0 1
      (Nat.le_refl 0) (by omega) (fun i _ _ => rfl)
      (fun i _ h2 => absurd h2 (by omega)) rfl
  · exact C4_watcher_behaviour.2.1 (fun i => i == 0) none 0 1 2
      (by omega) (by omega)
      (fun i _ h2 => by
        have hi : i = 0 := by omega
        subst hi
        rfl)
      (fun i _ _ f hf => by exact absurd hf (by simp)) rfl
  · exact C4_watcher_behaviour.2.2 (fun _ => true) 5 0

/-- C6 counterexample: for a pair whose agent has not finished (state
"ongoing") and whose physical table does not exist, the handler raises a 412
error instead of returning the empty page, so the claim as stated over every
(measurement, agent) pair is false. -/
theorem C6_results_counterexample :
    get_measurement_results (R := Nat)
        ⟨true, some "ongoing", false, ⟨3, none, none, [7]⟩⟩ =
      Except.error
        (ApiError.preconditionFailed "The agent has not finished the measurement") ∧
    get_measurement_results (R := Nat)
        ⟨true, some "ongoing", false, ⟨3, none, none, [7]⟩⟩ ≠
      Except.ok ⟨0, none, none, []⟩ := by
  refine ⟨rfl, ?_⟩
  intro h
  simp [get_measurement_results] at h

/-- C6 (amended): for every pair whose measurement exists for the user,
whose agent participated, and whose agent state is "finished", querying when
the physical table does not exist yet returns the empty page with count 0
and no results, and does not raise an error. -/
theorem C6_nonexistent_table_empty_page {R : Type} (env : ResultsEnv R)
    (h1 : env.measurement_found = true)
    (h2 : env.agent_specific_state = some "finished")
    (h3 : env.table_exists = false) :
    get_measurement_results env =
      Except.ok { count := 0, next := none, previous := none, results := [] } := by
  simp [get_measurement_results, h1, h2, h3]

/-- C6 witness: a concrete finished pair with a missing table yields the
empty page. -/
theorem C6_nonexistent_table_empty_page_witness :
    get_measurement_results (R := Nat)
        ⟨true, some "finished", false, ⟨9, none, none, [4]⟩⟩ =
      Except.ok { count := 0, next := none, previous := none, results := [] } :=
  C6_nonexistent_table_empty_page ⟨true, some "finished", false, ⟨9, none, none, [4]⟩⟩
    rfl rfl rfl

/-- C7: a successful cancel deletes only the shared liveness key — the
measurement rows (hence every end_time) and the AgentSpecific rows are
unchanged, the liveness key for this measurement is gone afterwards — while
the normal-finalization stamp operation is the one that writes end_time:
after stamping, every row either carries the stamped end_time or is an
untouched original row. -/
theorem C7_cancel_frame (st st' : WorldState) (user uuid : String)
    (resp : DeleteResponse)
    (h : delete_measurement st user uuid = Except.ok (st', resp)) :
    st'.measurements = st.measurements ∧
    st'.agent_specifics = st.agent_specifics ∧
    redisGetState st'.redis_states uuid = none ∧
    (∀ rows u i t r, r ∈ stamp_end_time rows u i t →
      r.end_time = some t ∨ r ∈ rows) := by
  have hframe : st'.measurements = st.measurements ∧
      st'.agent_specifics = st.agent_specifics ∧
      st'.redis_states = st.redis_states.filter (fun p => !(p.1 == uuid)) := by
    unfold delete_measurement at h
    split at h
    · exact absurd h (by simp)
    · split at h
      · exact absurd h (by simp)
      · injection h with h2
        injection h2 with hA hB
        subst hA
        exact ⟨rfl, rfl, rfl⟩
  refine ⟨hframe.1, hframe.2.1, ?_, ?_⟩
  · rw [hframe.2.2]
    show (List.find? _ _).map _ = none
    rw [Option.map_eq_none', List.find?_eq_none]
    intro p hp
    have hpf := (List.mem_filter.mp hp).2
    simp only [Bool.not_eq_true'] at hpf
    simp [hpf]
  · intro rows u i t r hr
    unfold stamp_end_time at hr
    obtain ⟨orig, horig, hmap⟩ := List.mem_map.mp hr
    by_cases hcond : (orig.user == u && orig.uuid == i) = true
    · left
      rw [← hmap, if_pos hcond]
    · right
      rw [← hmap, if_neg hcond]
      exact horig

/-- C7 witness: cancelling a concrete ongoing measurement leaves the
measurement rows and agent rows untouched and removes the liveness key. -/
theorem C7_cancel_frame_witness :
    ({ measurements := [{ uuid := "m1", user := "u1", end_time := none }]
       agent_specifics :=
         [{ measurement_uuid := "m1", agent_uuid := "a1", state := "ongoing" }]
       redis_states := [] } : WorldState).measurements =
      [{ uuid := "m1", user := "u1", end_time := none }] ∧
    redisGetState
      ({ measurements := [{ uuid := "m1", user := "u1", end_time := none }]
         agent_specifics :=
           [{ measurement_uuid := "m1", agent_uuid := "a1", state := "ongoing" }]
         redis_states := [] } : WorldState).redis_states "m1" = none := by
  have h := C7_cancel_frame
    { measurements := [{ uuid := "m1", user := "u1", end_time := none }]
      agent_specifics :=
        [{ measurement_uuid := "m1", agent_uuid := "a1", state := "ongoing" }]
      redis_states := [("m1", "ongoing")] }
    { measurements := [{ uuid := "m1", user := "u1", end_time := none }]
      agent_specifics :=
        [{ measurement_uuid := "m1", agent_uuid := "a1", state := "ongoing" }]
      redis_states := [] }
    "u1" "m1" { uuid := "m1", action := "canceled" } (by rfl)
  exact ⟨h.1, h.2.2.1⟩

/-- The per-agent loop fails whenever some requested agent is not live. -/
theorem buildAgents_error_of_dead (tool : String) (l : List AgentRequest)
    (active : List String) (a : AgentRequest) (ha : a ∈ l)
    (hdead : a.uuid ∉ active) :
    ∃ e, buildAgents tool l active = Except.error e := by
  induction l with
  | nil => exact absurd ha (List.not_mem_nil a)
  | cons b rest ih =>
    by_cases hb : b.uuid ∈ active
    · rcases List.mem_cons.mp ha with hab | har
      · exact absurd hb (hab ▸ hdead)
      · cases hv : tool_parameters_validator tool b.tool_parameters with
        | error e2 => exact ⟨e2, by simp [buildAgents, hb, hv]⟩
        | ok tp =>
          obtain ⟨e, he⟩ := ih har
          exact ⟨e, by simp [buildAgents, hb, hv, he]⟩
    · exact ⟨ApiError.notFound "Agent not found", by simp [buildAgents, hb]⟩

/-- C8: a submission that explicitly requests an agent set is rejected when
any requested agent is not currently live; the handler returns an error, so
no job is dispatched and no state is written. -/
theorem C8_dead_agent_rejects (env : PostEnv) (m : PostBody) (a : AgentRequest)
    (ha : a ∈ m.agents) (hdead : a.uuid ∉ env.active_agents) :
    ∃ e, post_measurement env m = Except.error e := by
  by_cases hs : env.storage_has_file
  · cases hq : env.quota_ok with
    | none =>
      exact ⟨ApiError.unauthorized "Invalid prefixes length",
        by simp [post_measurement, hs, hq]⟩
    | some q =>
      cases q with
      | false =>
        exact ⟨ApiError.unauthorized "Quota exceeded",
          by simp [post_measurement, hs, hq]⟩
      | true =>
        cases hv : tool_parameters_validator m.tool m.tool_parameters with
        | error e => exact ⟨e, by simp [post_measurement, hs, hq, hv]⟩
        | ok tp =>
          have hne : ¬ m.agents.isEmpty = true := by
            intro hE
            rw [List.isEmpty_iff] at hE
            rw [hE] at ha
            exact List.not_mem_nil a ha
          obtain ⟨e, he⟩ :=
            buildAgents_error_of_dead m.tool m.agents env.active_agents a ha hdead
          exact ⟨e, by simp [post_measurement, dispatchAgents, hs, hq, hv, hne, he]⟩
  · exact ⟨ApiError.notFound "File object not found",
      by simp [post_measurement, hs]⟩

/-- C8 witness: requesting the non-live agent a2 while only a1 is live makes
the submission fail. -/
theorem C8_dead_agent_rejects_witness :
    (post_measurement ⟨true, some true, ["a1"], "mu", "u"⟩
      ⟨"t.csv", "diamond-miner", ⟨"udp", 2, 30, 10⟩, [],
        [⟨"a2", ⟨"udp", 2, 30, 10⟩⟩]⟩).isOk = false := by
  obtain ⟨e, he⟩ := C8_dead_agent_rejects ⟨true, some true, ["a1"], "mu", "u"⟩
    ⟨"t.csv", "diamond-miner", ⟨"udp", 2, 30, 10⟩, [],
      [⟨"a2", ⟨"udp", 2, 30, 10⟩⟩]⟩
    ⟨"a2", ⟨"udp", 2, 30, 10⟩⟩ (List.mem_singleton.mpr rfl) (by decide)
  rw [he]
  rfl

/-- For the restricted tool, a successful validation forces max_round = 1. -/
theorem validator_ping_max_round (p tp : ToolParameters)
    (h : tool_parameters_validator "diamond-miner-ping" p = Except.ok tp) :
    tp.max_round = 1 := by
  unfold tool_parameters_validator at h
  rw [if_pos rfl] at h
  simp only [] at h
  split at h
  · exact absurd h (by simp)
  · injection h with h2
    rw [← h2]

/-- For the restricted tool, every validated per-agent override carries
max_round = 1. -/
theorem buildAgents_ping_max_round (l : List AgentRequest)
    (active : List String) (ags : List (String × Option ToolParameters))
    (h : buildAgents "diamond-miner-ping" l active = Except.ok ags) :
    ∀ x ∈ ags, ∀ tp, x.2 = some tp → tp.max_round = 1 := by
  induction l generalizing ags with
  | nil =>
    simp only [buildAgents, Except.ok.injEq] at h
    subst h
    intro x hx
    exact absurd hx (List.not_mem_nil x)
  | cons b rest ih =>
    unfold buildAgents at h
    by_cases hb : b.uuid ∈ active
    · rw [if_pos hb] at h
      cases hv : tool_parameters_validator "diamond-miner-ping" b.tool_parameters with
      | error e => rw [hv] at h; simp at h
      | ok tp =>
        rw [hv] at h
        cases hrest : buildAgents "diamond-miner-ping" rest active with
        | error e => rw [hrest] at h; simp at h
        | ok l2 =>
          rw [hrest] at h
          simp only [Except.ok.injEq] at h
          subst h
          intro x hx tp' hx2
          rcases List.mem_cons.mp hx with hxh | hxt
          · subst hxh
            simp only at hx2
            rw [← Option.some_inj.mp hx2]
            exact validator_ping_max_round b.tool_parameters tp hv
          · exact ih l2 hrest x hxt tp' hx2
    · rw [if_neg hb] at h
      simp at h

/-- C9: for a submission with the restricted tool diamond-miner-ping, a udp
protocol is rejected before any dispatch, and a successful submission
dispatches measurement parameters and per-agent overrides all forced to a
single round (max_round = 1). -/
theorem C9_ping_single_round (env : PostEnv) (m : PostBody)
    (htool : m.tool = "diamond-miner-ping") :
    (m.tool_parameters.protocol = "udp" →
      ∃ e, post_measurement env m = Except.error e) ∧
    (∀ d, post_measurement env m = Except.ok d →
      d.tool_parameters.max_round = 1 ∧
      ∀ x ∈ d.agents, ∀ tp, x.2 = some tp → tp.max_round = 1) := by
  constructor
  · intro hudp
    by_cases hs : env.storage_has_file
    · cases hq : env.quota_ok with
      | none =>
        exact ⟨ApiError.unauthorized "Invalid prefixes length",
          by simp [post_measurement, hs, hq]⟩
      | some q =>
        cases q with
        | false =>
          exact ⟨ApiError.unauthorized "Quota exceeded",
            by simp [post_measurement, hs, hq]⟩
        | true =>
          have hv : tool_parameters_validator m.tool m.tool_parameters =
              Except.error (ApiError.unauthorized
                "Tool diamond-miner-ping only accessible with ICMP protocol") := by
            simp [tool_parameters_validator, htool, hudp]
          exact ⟨ApiError.unauthorized
              "Tool diamond-miner-ping only accessible with ICMP protocol",
            by simp [post_measurement, hs, hq, hv]⟩
    · exact ⟨ApiError.notFound "File object not found",
        by simp [post_measurement, hs]⟩
  · intro d hd
    unfold post_measurement at hd
    split at hd
    · split at hd
      · simp at hd
      · split at hd
        · split at hd
          · simp at hd
          · rename_i tp hv
            split at hd
            · simp at hd
            · rename_i ags hda
              injection hd with h2
              subst h2
              constructor
              · rw [htool] at hv
                exact validator_ping_max_round m.tool_parameters tp hv
              · show ∀ x ∈ ags, ∀ tp2, x.2 = some tp2 → tp2.max_round = 1
                unfold dispatchAgents at hda
                split at hda
                · simp only [Except.ok.injEq] at hda
                  subst hda
                  intro x hx tp2 hx2
                  obtain ⟨u, hu, hxu⟩ := List.mem_map.mp hx
                  rw [← hxu] at hx2
                  simp at hx2
                · rw [htool] at hda
                  exact buildAgents_ping_max_round m.agents env.active_agents ags hda
        · simp at hd
    · simp at hd

/-- C9 witness: a udp submission with diamond-miner-ping fails; an icmp one
succeeds and dispatches max_round = 1 at measurement level and in the
per-agent override. -/
theorem C9_ping_single_round_witness :
    (post_measurement ⟨true, some true, ["a1"], "mu", "u"⟩
      ⟨"t", "diamond-miner-ping", ⟨"udp", 2, 30, 10⟩, [], []⟩).isOk = false ∧
    post_measurement ⟨true, some true, ["a1"], "mu", "u"⟩
        ⟨"t", "diamond-miner-ping", ⟨"icmp", 2, 30, 10⟩, [],
          [⟨"a1", ⟨"icmp", 2, 30, 7⟩⟩]⟩ =
      Except.ok ⟨[("a1", some ⟨"icmp", 2, 30, 1⟩)], "mu", "u",
        "diamond-miner-ping", ⟨"icmp", 2, 30, 1⟩⟩ ∧
    (⟨"icmp", 2, 30, 1⟩ : ToolParameters).max_round = 1 := by
  refine ⟨?_, by rfl, ?_⟩
  · obtain ⟨e, he⟩ := (C9_ping_single_round ⟨true, some true, ["a1"], "mu", "u"⟩
      ⟨"t", "diamond-miner-ping", ⟨"udp", 2, 30, 10⟩, [], []⟩ rfl).1 rfl
    rw [he]
    rfl
  · exact ((C9_ping_single_round ⟨true, some true, ["a1"], "mu", "u"⟩
      ⟨"t", "diamond-miner-ping", ⟨"icmp", 2, 30, 10⟩, [],
        [⟨"a1", ⟨"icmp", 2, 30, 7⟩⟩]⟩ rfl).2
      ⟨[("a1", some ⟨"icmp", 2, 30, 1⟩)], "mu", "u", "diamond-miner-ping",
        ⟨"icmp", 2, 30, 1⟩⟩ (by rfl)).1

/-- The per-line check of the validator tests exactly the first four
comma-separated fields. -/
theorem lineCheck_eq_specFirstFour (ipOk : List Char → Bool)
    (line : List Char) :
    lineCheck ipOk line = specFirstFour ipOk line := by
  unfold lineCheck specFirstFour
  cases hs : splitOnChar ',' [] (pyStrip line) with
  | nil => rfl
  | cons t r1 =>
    cases r1 with
    | nil => simp
    | cons p r2 =>
      cases r2 with
      | nil => simp
      | cons mi r3 =>
        cases r3 with
        | nil => simp
        | cons ma r4 => rfl

/-- C5 counterexample: a file whose single line carries a fifth trailing
field is accepted by the validator even though the line does not have the
four-field form the claim states, so "accepts only if every line has the
form target,protocol,min_ttl,max_ttl" is false. -/
theorem C5_target_form_counterexample :
    verify_target_file (fun s => s == "1.2.3.0/24".data)
        ["1.2.3.0/24,udp,2,30,9".data] = true ∧
    specLineForm (fun s => s == "1.2.3.0/24".data)
        "1.2.3.0/24,udp,2,30,9".data = false := by
  decide

/-- C5 (amended): the validator accepts a target file exactly when the file
is nonempty and, on every line, the first four comma-separated fields are a
target accepted by the ipaddress parser, a protocol among icmp, icmp6 and
udp, and two TTLs strictly between 0 and 256 — any extra trailing fields
being ignored. -/
theorem C5_validator_first_four (ipOk : List Char → Bool)
    (lines : List (List Char)) :
    verify_target_file ipOk lines = true ↔
      lines ≠ [] ∧ ∀ line ∈ lines, specFirstFour ipOk line = true := by
  cases lines with
  | nil => simp [verify_target_file]
  | cons x xs =>
    constructor
    · intro h
      refine ⟨by simp, ?_⟩
      intro line hmem
      rw [← lineCheck_eq_specFirstFour]
      exact List.all_eq_true.mp h line hmem
    · rintro ⟨hne, hall⟩
      show (x :: xs).all (lineCheck ipOk) = true
      rw [List.all_eq_true]
      intro line hmem
      rw [lineCheck_eq_specFirstFour]
      exact hall line hmem

/-- C5 witness: the record 1.2.3.0/24,udp,2,30 is accepted, while min_ttl=0
and max_ttl=256 are rejected. -/
theorem C5_validator_first_four_witness :
    verify_target_file (fun s => s == "1.2.3.0/24".data)
      ["1.2.3.0/24,udp,2,30".data] = true ∧
    verify_target_file (fun s => s == "1.2.3.0/24".data)
      ["1.2.3.0/24,udp,0,30".data] = false ∧
    verify_target_file (fun s => s == "1.2.3.0/24".data)
      ["1.2.3.0/24,udp,2,256".data] = false := by
  refine ⟨?_, ?_, ?_⟩
  · exact (C5_validator_first_four (fun s => s == "1.2.3.0/24".data)
      ["1.2.3.0/24,udp,2,30".data]).mpr ⟨by decide, by decide⟩
  · cases hb : verify_target_file (fun s => s == "1.2.3.0/24".data)
        ["1.2.3.0/24,udp,0,30".data] with
    | false => rfl
    | true =>
      have hr := (C5_validator_first_four (fun s => s == "1.2.3.0/24".data)
        ["1.2.3.0/24,udp,0,30".data]).mp hb
      exact absurd (hr.2 "1.2.3.0/24,udp,0,30".data (by decide)) (by decide)
  · cases hb : verify_target_file (fun s => s == "1.2.3.0/24".data)
        ["1.2.3.0/24,udp,2,256".data] with
    | false => rfl
    | true =>
      have hr := (C5_validator_first_four (fun s => s == "1.2.3.0/24".data)
        ["1.2.3.0/24,udp,2,256".data]).mp hb
      exact absurd (hr.2 "1.2.3.0/24,udp,2,256".data (by decide)) (by decide)

/-- A hexadecimal character is not an underscore. -/
theorem hex_ne_und {c : Char} (h : isHexChar c = true) : ¬ c = '_' := by
  intro he
  rw [he] at h
  exact absurd h (by decide)

/-- A hexadecimal character is not a hyphen. -/
theorem hex_ne_dash {c : Char} (h : isHexChar c = true) : ¬ c = '-' := by
  intro he
  rw [he] at h
  exact absurd h (by decide)

/-- The hyphen-to-underscore map leaves a hexadecimal group unchanged. -/
theorem map_sanitize_id (g : List Char) (h : ∀ c ∈ g, isHexChar c = true) :
    g.map (fun c => if c = '-' then '_' else c) = g := by
  induction g with
  | nil => rfl
  | cons c t ih =>
    rw [List.map_cons, if_neg (hex_ne_dash (h c (List.mem_cons_self c t))),
      ih (fun x hx => h x (List.mem_cons_of_mem c hx))]

/-- The underscore-to-hyphen map leaves a hexadecimal group unchanged. -/
theorem map_desanitize_id (g : List Char) (h : ∀ c ∈ g, isHexChar c = true) :
    g.map (fun c => if c = '_' then '-' else c) = g := by
  induction g with
  | nil => rfl
  | cons c t ih =>
    rw [List.map_cons, if_neg (hex_ne_und (h c (List.mem_cons_self c t))),
      ih (fun x hx => h x (List.mem_cons_of_mem c hx))]

/-- Sanitizing a valid uuid turns exactly its four hyphens into
underscores. -/
theorem sanitizeUuid_structured (g1 g2 g3 g4 g5 : List Char)
    (h1 : ∀ c ∈ g1, isHexChar c = true) (h2 : ∀ c ∈ g2, isHexChar c = true)
    (h3 : ∀ c ∈ g3, isHexChar c = true) (h4 : ∀ c ∈ g4, isHexChar c = true)
    (h5 : ∀ c ∈ g5, isHexChar c = true) :
    sanitizeUuid (g1 ++ '-' :: (g2 ++ '-' :: (g3 ++ '-' :: (g4 ++ '-' :: g5)))) =
      g1 ++ '_' :: (g2 ++ '_' :: (g3 ++ '_' :: (g4 ++ '_' :: g5))) := by
  unfold sanitizeUuid
  simp only [List.map_append, List.map_cons, eq_self_iff_true, if_true]
  rw [map_sanitize_id g1 h1, map_sanitize_id g2 h2, map_sanitize_id g3 h3,
    map_sanitize_id g4 h4, map_sanitize_id g5 h5]

/-- Parsing maps the sanitized chunks back to the original uuid. -/
theorem desanitizeUuid_structured (g1 g2 g3 g4 g5 : List Char)
    (h1 : ∀ c ∈ g1, isHexChar c = true) (h2 : ∀ c ∈ g2, isHexChar c = true)
    (h3 : ∀ c ∈ g3, isHexChar c = true) (h4 : ∀ c ∈ g4, isHexChar c = true)
    (h5 : ∀ c ∈ g5, isHexChar c = true) :
    desanitizeUuid (g1 ++ '_' :: (g2 ++ '_' :: (g3 ++ '_' :: (g4 ++ '_' :: g5)))) =
      g1 ++ '-' :: (g2 ++ '-' :: (g3 ++ '-' :: (g4 ++ '-' :: g5))) := by
  unfold desanitizeUuid
  simp only [List.map_append, List.map_cons, eq_self_iff_true, if_true]
  rw [map_desanitize_id g1 h1, map_desanitize_id g2 h2,
    map_desanitize_id g3 h3, map_desanitize_id g4 h4, map_desanitize_id g5 h5]

/-- A purely hexadecimal list is a clean chunk. -/
theorem cleanChunk_hex_all (g : List Char) (h : ∀ c ∈ g, isHexChar c = true) :
    cleanChunk g = true := by
  induction g with
  | nil => rfl
  | cons c t ih =>
    cases t with
    | nil =>
      have hc := hex_ne_und (h c (List.mem_cons_self c []))
      simp [cleanChunk, hc]
    | cons d r =>
      have hc := hex_ne_und (h c (List.mem_cons_self c (d :: r)))
      have hb : (c == '_') = false := beq_eq_false_iff_ne.mpr hc
      have ht : cleanChunk (d :: r) = true :=
        ih (fun x hx => h x (List.mem_cons_of_mem c hx))
      simp [cleanChunk, hb, ht]

/-- Scanning a hexadecimal group does not break a chunk. -/
theorem cleanChunk_hex_append (g rest : List Char)
    (hg : ∀ c ∈ g, isHexChar c = true) (hne : rest ≠ []) :
    cleanChunk (g ++ rest) = cleanChunk rest := by
  induction g with
  | nil => rfl
  | cons c t ih =>
    have hb : (c == '_') = false :=
      beq_eq_false_iff_ne.mpr (hex_ne_und (hg c (List.mem_cons_self c t)))
    have ht : ∀ x ∈ t, isHexChar x = true :=
      fun x hx => hg x (List.mem_cons_of_mem c hx)
    obtain ⟨d, tail, htr⟩ : ∃ d tail, t ++ rest = d :: tail := by
      cases htt : t ++ rest with
      | nil => exact absurd (List.append_eq_nil.mp htt).2 hne
      | cons d tail => exact ⟨d, tail, rfl⟩
    rw [List.cons_append, htr]
    have hstep : cleanChunk (c :: d :: tail) = cleanChunk (d :: tail) := by
      simp [cleanChunk, hb]
    rw [hstep, ← htr]
    exact ih ht

/-- An underscore followed by a nonempty hexadecimal group does not break a
chunk. -/
theorem cleanChunk_und_cons (g rest : List Char)
    (hg : ∀ c ∈ g, isHexChar c = true) (hne : g ≠ []) :
    cleanChunk ('_' :: (g ++ rest)) = cleanChunk (g ++ rest) := by
  cases g with
  | nil => exact absurd rfl hne
  | cons d t =>
    have hb : (d == '_') = false :=
      beq_eq_false_iff_ne.mpr (hex_ne_und (hg d (List.mem_cons_self d t)))
    rw [List.cons_append]
    simp [cleanChunk, hb]

/-- A sanitized valid uuid is a clean chunk. -/
theorem cleanChunk_sanitized (g1 g2 g3 g4 g5 : List Char)
    (h1 : ∀ c ∈ g1, isHexChar c = true) (h2 : ∀ c ∈ g2, isHexChar c = true)
    (h3 : ∀ c ∈ g3, isHexChar c = true) (h4 : ∀ c ∈ g4, isHexChar c = true)
    (h5 : ∀ c ∈ g5, isHexChar c = true)
    (n2 : g2 ≠ []) (n3 : g3 ≠ []) (n4 : g4 ≠ []) (n5 : g5 ≠ []) :
    cleanChunk (g1 ++ '_' :: (g2 ++ '_' :: (g3 ++ '_' :: (g4 ++ '_' :: g5)))) =
      true := by
  rw [cleanChunk_hex_append g1 _ h1 (by simp)]
  rw [cleanChunk_und_cons g2 _ h2 n2]
  rw [cleanChunk_hex_append g2 _ h2 (by simp)]
  rw [cleanChunk_und_cons g3 _ h3 n3]
  rw [cleanChunk_hex_append g3 _ h3 (by simp)]
  rw [cleanChunk_und_cons g4 _ h4 n4]
  rw [cleanChunk_hex_append g4 _ h4 (by simp)]
  have h9 := cleanChunk_und_cons g5 [] h5 n5
  rw [List.append_nil] at h9
  rw [h9]
  exact cleanChunk_hex_all g5 h5

/-- The split leaves a clean chunk with no separator in one piece. -/
theorem splitUnd_clean (xs : List Char) : ∀ acc : List Char,
    cleanChunk xs = true → splitUnd acc xs = [acc.reverse ++ xs] := by
  induction xs with
  | nil => intro acc h; simp [splitUnd]
  | cons c tail ih =>
    intro acc h
    cases tail with
    | nil => simp [splitUnd]
    | cons d rest =>
      have hb : ¬(c = '_' ∧ d = '_') := by
        intro hcd
        rw [hcd.1, hcd.2] at h
        simp [cleanChunk] at h
      have h2 : cleanChunk (d :: rest) = true := by
        simp [cleanChunk] at h
        exact h.2
      have step : splitUnd acc (c :: d :: rest) =
          splitUnd (c :: acc) (d :: rest) := by
        simp only [splitUnd]
        rw [if_neg hb]
      rw [step, ih (c :: acc) h2]
      simp

/-- The split cuts exactly at the separator following a clean chunk. -/
theorem splitUnd_sep (xs : List Char) : ∀ (ys acc : List Char),
    cleanChunk xs = true →
    splitUnd acc (xs ++ '_' :: '_' :: ys) =
      (acc.reverse ++ xs) :: splitUnd [] ys := by
  induction xs with
  | nil =>
    intro ys acc h
    simp only [List.nil_append, splitUnd]
    rw [if_pos ⟨trivial, trivial⟩]
    simp
  | cons c tail ih =>
    intro ys acc h
    cases tail with
    | nil =>
      have hc : ¬ c = '_' := by
        simpa [cleanChunk] using h
      simp only [List.cons_append, List.nil_append, splitUnd]
      rw [if_neg (fun hcd => hc hcd.1), if_pos ⟨trivial, trivial⟩]
      simp
    | cons d rest =>
      have hb : ¬(c = '_' ∧ d = '_') := by
        intro hcd
        rw [hcd.1, hcd.2] at h
        simp [cleanChunk] at h
      have h2 : cleanChunk (d :: rest) = true := by
        simp [cleanChunk] at h
        exact h.2
      simp only [List.cons_append]
      have step : splitUnd acc (c :: d :: (rest ++ '_' :: '_' :: ys)) =
          splitUnd (c :: acc) (d :: (rest ++ '_' :: '_' :: ys)) := by
        simp only [splitUnd]
        rw [if_neg hb]
      rw [step]
      have hrec := ih ys (c :: acc) h2
      simp only [List.cons_append] at hrec
      rw [hrec]
      simp

/-- C1: for every pair of valid UUID strings, parsing the forged table name
returns the original pair of uuids. -/
theorem C1_table_name_roundtrip (m a : List Char) (hm : ValidUuid m)
    (ha : ValidUuid a) :
    parse_table_name (forge_table_name m a) = some (m, a) := by
  obtain ⟨m1, m2, m3, m4, m5, hl1, hl2, hl3, hl4, hl5, x1, x2, x3, x4, x5, hmeq⟩ := hm
  obtain ⟨a1, a2, a3, a4, a5, kl1, kl2, kl3, kl4, kl5, y1, y2, y3, y4, y5, haeq⟩ := ha
  subst hmeq
  subst haeq
  have nm2 : m2 ≠ [] := by intro hx; rw [hx] at hl2; simp at hl2
  have nm3 : m3 ≠ [] := by intro hx; rw [hx] at hl3; simp at hl3
  have nm4 : m4 ≠ [] := by intro hx; rw [hx] at hl4; simp at hl4
  have nm5 : m5 ≠ [] := by intro hx; rw [hx] at hl5; simp at hl5
  have na2 : a2 ≠ [] := by intro hx; rw [hx] at kl2; simp at kl2
  have na3 : a3 ≠ [] := by intro hx; rw [hx] at kl3; simp at kl3
  have na4 : a4 ≠ [] := by intro hx; rw [hx] at kl4; simp at kl4
  have na5 : a5 ≠ [] := by intro hx; rw [hx] at kl5; simp at kl5
  have hcm := cleanChunk_sanitized m1 m2 m3 m4 m5 x1 x2 x3 x4 x5 nm2 nm3 nm4 nm5
  have hca := cleanChunk_sanitized a1 a2 a3 a4 a5 y1 y2 y3 y4 y5 na2 na3 na4 na5
  have hres : cleanChunk "results".data = true := by decide
  unfold forge_table_name parse_table_name
  rw [sanitizeUuid_structured m1 m2 m3 m4 m5 x1 x2 x3 x4 x5,
    sanitizeUuid_structured a1 a2 a3 a4 a5 y1 y2 y3 y4 y5]
  have hshape : "results".data ++ "__".data ++
      (m1 ++ '_' :: (m2 ++ '_' :: (m3 ++ '_' :: (m4 ++ '_' :: m5)))) ++
      "__".data ++
      (a1 ++ '_' :: (a2 ++ '_' :: (a3 ++ '_' :: (a4 ++ '_' :: a5)))) =
      "results".data ++ '_' :: '_' ::
        ((m1 ++ '_' :: (m2 ++ '_' :: (m3 ++ '_' :: (m4 ++ '_' :: m5)))) ++
          '_' :: '_' ::
          (a1 ++ '_' :: (a2 ++ '_' :: (a3 ++ '_' :: (a4 ++ '_' :: a5))))) := by
    have hu : "__".data = ['_', '_'] := rfl
    rw [hu]
    simp [List.append_assoc]
  rw [hshape]
  rw [splitUnd_sep "results".data _ [] hres]
  rw [splitUnd_sep _ _ [] hcm]
  rw [splitUnd_clean _ [] hca]
  simp only [List.reverse_nil, List.nil_append]
  show some
      (desanitizeUuid (m1 ++ '_' :: (m2 ++ '_' :: (m3 ++ '_' :: (m4 ++ '_' :: m5)))),
       desanitizeUuid (a1 ++ '_' :: (a2 ++ '_' :: (a3 ++ '_' :: (a4 ++ '_' :: a5))))) =
    _
  rw [desanitizeUuid_structured m1 m2 m3 m4 m5 x1 x2 x3 x4 x5,
    desanitizeUuid_structured a1 a2 a3 a4 a5 y1 y2 y3 y4 y5]

/-- C1 witness: the round trip holds on a concrete valid UUID pair. -/
theorem C1_table_name_roundtrip_witness :
    ValidUuid "123e4567-e89b-12d3-a456-426614174000".data ∧
    parse_table_name
        (forge_table_name "123e4567-e89b-12d3-a456-426614174000".data
          "123e4567-e89b-12d3-a456-426614174000".data) =
      some ("123e4567-e89b-12d3-a456-426614174000".data,
        "123e4567-e89b-12d3-a456-426614174000".data) := by
  have hu : ValidUuid "123e4567-e89b-12d3-a456-426614174000".data :=
    ⟨"123e4567".data, "e89b".data, "12d3".data, "a456".data,
      "426614174000".data, by decide, by decide, by decide, by decide,
      by decide, by decide, by decide, by decide, by decide, by decide,
      by decide⟩
  exact ⟨hu, C1_table_name_roundtrip _ _ hu hu⟩

end Iris
